import Mathlib

/-!
Verification development for the AgFileSystemScanner repository
(src/src/main.cpp).  The definitions below are a shallow embedding of the
traversal core: the recursive directory walker `scan_path`, the search-mode
walker `search_path`, the recursive size calculator `calc_dir_size`, the
name matchers, and the summary-printing drivers `scan_path_init` /
`search_path_init`.

Modelling conventions:
* A directory listing is a `List FsEntry`; `Option (List FsEntry)` models the
  result of constructing `fs::directory_iterator` (`none` = construction set
  the error code, as for an unreadable directory).
* `directory_entry::status` following symlinks yields exactly one of
  {regular file, directory, other, not-found-like}; this is the `StatType`
  field.  `is_symlink` uses the non-following status and is an independent
  Bool, so a symlink to a regular file has `isSym = true`, `stype = .file`,
  exactly as the C++ predicates report.
* Per-entry fallible adapter calls are `Option` fields: `sizeRes` models
  `fs::file_size` (none = error), `targetRes` models `fs::read_symlink`,
  `canonOk` models whether `fs::canonical` succeeds in search mode, and a
  failing `directory_entry::status` call is the separate `statErr`
  constructor.
* The global counters (`sNumFilesTotal`, ..., `sNumDirsMatched`) and
  `sPrintSummary` are threaded explicitly as the state record `St`.
* Printing is modelled as a list of events `Ev`; permission bits, timestamp
  columns, terminal colours and the hidden-category aggregate lines are
  formatting details not modelled here.  `process exit` inside the child
  loop is the `aborted` flag.
-/

/-- The followed-status classification of one entry: exactly one of regular
file / directory / other ("special") / none-of-these, as produced by
`entry.is_regular_file / is_directory / is_other` in the source. -/
inductive StatType where
  | file
  | dir
  | special
  | notFound
deriving DecidableEq

/-- One filesystem entry as seen by one directory-iteration step of the
walkers in main.cpp.  `statErr` models a failing `entry.status` call.  For
`node`: `isSym` is `entry.is_symlink ()`, `stype` the followed status,
`sizeRes` the `fs::file_size` result, `targetRes` the `fs::read_symlink`
result, `canonOk` the success of `fs::canonical`, and `openRes` the result
of opening this entry as a directory (used when the walkers recurse). -/
inductive FsEntry where
  | statErr (name : String)
  | node (name : String) (isSym : Bool) (stype : StatType)
      (sizeRes : Option Nat) (targetRes : Option String) (canonOk : Bool)
      (openRes : Option (List FsEntry))

/-- Is this entry the status-failure case? -/
def FsEntry.isStatErr : FsEntry → Bool
  | .statErr _ => true
  | .node _ _ _ _ _ _ _ => false

mutual

/-- Embedding of `calc_dir_size` (main.cpp lines 523-615).  Takes the
directory-iterator construction result; a failed construction returns the
sentinel `-1`.  Error reporting (`SHOW_ERR`) and the diagnostic print for
undeterminable types are I/O only and are not modelled here. -/
def calcDirSize : Option (List FsEntry) → Int
  | none => -1
  | some es => calcList es

/-- The child loop of `calc_dir_size` over the remaining entries. -/
def calcList : List FsEntry → Int
  | [] => 0
  | e :: rest => calcEntry e + calcList rest

/-- One iteration of the `calc_dir_size` child loop: a status failure is
skipped; a regular file (the `isFile` test comes first in the source, before
any symlink test) contributes its readable size or 0; a non-symlink
directory contributes its recursive size unless that is the `-1` sentinel;
everything else (symlinks, specials, undeterminable types) contributes 0. -/
def calcEntry : FsEntry → Int
  | .statErr _ => 0
  | .node _ isSym stype sizeRes _ _ openRes =>
    if stype = .file then
      match sizeRes with
      | some s => (s : Int)
      | none => 0
    else if stype = .dir ∧ isSym = false then
      let c := calcDirSize openRes
      if c = -1 then 0 else c
    else 0

end

/-- The last-component stem as computed by `std::filesystem::path::stem`,
which the source calls for `--search-noext`: the filename with its final
extension removed, where "." and ".." and a filename whose only period is
its first character have no extension. -/
def stemData (s : List Char) : List Char :=
  if s = ['.'] ∨ s = ['.', '.'] then s
  else
    match s.reverse.dropWhile (fun c => c ≠ '.') with
    | [] => s
    | _ :: [] => s
    | _ :: rest => rest.reverse

/-- String version of `stemData`, applied to entry names. -/
def stemStr (s : String) : String := String.mk (stemData s.data)

/-- Embedding of `check_contains` (main.cpp lines 461-491, the
`wstring::find` path): scan every suffix of the name for the pattern as a
prefix. -/
def hasSubData (pat : List Char) : List Char → Bool
  | [] => pat.isEmpty
  | c :: t => pat.isPrefixOf (c :: t) || hasSubData pat t

/-- The resolved command-line options consumed by the walkers: the bits of
`sOptionMask` that the traversal core reads, plus `sRecursionLevel` and
`sSearchPattern`.  Permission / timestamp / absolute-path display bits only
affect formatting details that are not modelled. -/
structure Opts where
  showRecursive : Bool
  showFiles : Bool
  showSymlinks : Bool
  showSpecial : Bool
  showDirSize : Bool
  showErrors : Bool
  searchExact : Bool
  searchNoext : Bool
  recursionLevel : Nat
  searchPattern : String
deriving DecidableEq

/-- The process-lifetime accumulators of main.cpp: the `sNum*Total`,
`sNum*Root` and `sNum*Matched` counters plus the `sPrintSummary` flag. -/
structure St where
  numFilesTotal : Nat
  numSymlinksTotal : Nat
  numSpecialTotal : Nat
  numDirsTotal : Nat
  numFilesRoot : Nat
  numSymlinksRoot : Nat
  numSpecialRoot : Nat
  numDirsRoot : Nat
  numFilesMatched : Nat
  numSymlinksMatched : Nat
  numSpecialMatched : Nat
  numDirsMatched : Nat
  printSummary : Bool
deriving DecidableEq

/-- The zero state: all global counters of main.cpp are zero-initialised at
process start, `sPrintSummary` starts false. -/
def St.init : St :=
  { numFilesTotal := 0, numSymlinksTotal := 0, numSpecialTotal := 0
    numDirsTotal := 0, numFilesRoot := 0, numSymlinksRoot := 0
    numSpecialRoot := 0, numDirsRoot := 0, numFilesMatched := 0
    numSymlinksMatched := 0, numSpecialMatched := 0, numDirsMatched := 0
    printSummary := false }

/-- The per-directory counters of one `scan_path` activation:
`regularFileCnt`, `symlinkCnt`, `specialCnt`, `subdirCnt` and
`totalFileSize`. -/
structure Cnt where
  regularFileCnt : Nat
  symlinkCnt : Nat
  specialCnt : Nat
  subdirCnt : Nat
  totalFileSize : Nat
deriving DecidableEq

/-- All per-directory counters zero, as at the start of the child loop. -/
def Cnt.zero : Cnt :=
  { regularFileCnt := 0, symlinkCnt := 0, specialCnt := 0, subdirCnt := 0
    totalFileSize := 0 }

/-- Componentwise sum of per-directory counters. -/
def Cnt.add (a b : Cnt) : Cnt :=
  { regularFileCnt := a.regularFileCnt + b.regularFileCnt
    symlinkCnt := a.symlinkCnt + b.symlinkCnt
    specialCnt := a.specialCnt + b.specialCnt
    subdirCnt := a.subdirCnt + b.subdirCnt
    totalFileSize := a.totalFileSize + b.totalFileSize }

/-- One line of output of the walkers.  `symLine`, `fileLine`,
`specialLine` and `dirLine` are per-entry lines carrying the level of the
emitting call (the indentation `pLevel`); `errLine` is a `SHOW_ERR` report
on standard error, `outLine` a plain `wprintf` diagnostic; the summary
constructors are the end-of-run blocks of the two `_init` drivers. -/
inductive Ev where
  | symLine (lvl : Nat) (name target : String)
  | fileLine (lvl : Nat) (name : String) (size : Int)
  | specialLine (lvl : Nat) (name : String)
  | dirLine (lvl : Nat) (name : String) (size : Int)
  | errLine (name : String)
  | outLine (name : String)
  | summaryLine (files syms specials dirs : Nat)
  | recSummaryLine (files syms specials dirs : Nat)
  | searchSummaryLine (files syms specials dirs : Nat)
  | travSummaryLine (files syms specials dirs : Nat)
deriving DecidableEq

/-- The level a line of output is printed at, when it is a per-entry line. -/
def Ev.lvl? : Ev → Option Nat
  | .symLine l _ _ => some l
  | .fileLine l _ _ => some l
  | .specialLine l _ => some l
  | .dirLine l _ _ => some l
  | _ => none

/-- Is this event one of the end-of-run summary blocks? -/
def Ev.isSummary : Ev → Bool
  | .summaryLine _ _ _ _ => true
  | .recSummaryLine _ _ _ _ => true
  | .searchSummaryLine _ _ _ _ => true
  | .travSummaryLine _ _ _ _ => true
  | _ => false

/-- The recursion guard shared by both walkers (main.cpp lines 981-985 and
1334-1338): recursion must be enabled, and either the configured depth limit
is 0 (unlimited) or the current level is below the limit. -/
def recurseCond (o : Opts) (lvl : Nat) : Bool :=
  o.showRecursive && (o.recursionLevel == 0 || decide (lvl < o.recursionLevel))

/-- Result of one whole `scan_path` activation. -/
structure ScanOut where
  st : St
  evs : List Ev
  aborted : Bool
deriving DecidableEq

/-- Result of (a suffix of) the `scan_path` child loop: the per-directory
counters accumulated over the processed entries, the updated globals, the
output, and whether `exit` was reached inside the loop. -/
structure LoopOut where
  cnt : Cnt
  st : St
  evs : List Ev
  aborted : Bool
deriving DecidableEq

/-- The fold after the child loop (main.cpp lines 995-1005): the local
counters are added to the `sNum*Total` accumulators always, and to the
`sNum*Root` accumulators only when the call is at level 0. -/
def foldCnt (lvl : Nat) (c : Cnt) (st : St) : St :=
  { st with
    numFilesTotal := st.numFilesTotal + c.regularFileCnt
    numSymlinksTotal := st.numSymlinksTotal + c.symlinkCnt
    numSpecialTotal := st.numSpecialTotal + c.specialCnt
    numDirsTotal := st.numDirsTotal + c.subdirCnt
    numFilesRoot := if lvl = 0 then st.numFilesRoot + c.regularFileCnt else st.numFilesRoot
    numSymlinksRoot := if lvl = 0 then st.numSymlinksRoot + c.symlinkCnt else st.numSymlinksRoot
    numSpecialRoot := if lvl = 0 then st.numSpecialRoot + c.specialCnt else st.numSpecialRoot
    numDirsRoot := if lvl = 0 then st.numDirsRoot + c.subdirCnt else st.numDirsRoot }

mutual

/-- Embedding of `scan_path` (main.cpp lines 704-1108) on the
directory-iterator construction result for `path`.  A failed construction
reports the error when `-e` is on; at the root level it additionally prints
a plain diagnostic when `-e` is off and clears `sPrintSummary`; then the
call returns without touching any counter.  Otherwise the child loop runs
and, unless the process exited inside it, its counters are folded into the
global accumulators. -/
def scanPath (o : Opts) (path : String) (lvl : Nat)
    (openRes : Option (List FsEntry)) (st : St) : ScanOut :=
  match openRes with
  | none =>
    if lvl = 0 then
      { st := { st with printSummary := false }
        evs := if o.showErrors then [Ev.errLine path] else [Ev.outLine path]
        aborted := false }
    else
      { st := st
        evs := if o.showErrors then [Ev.errLine path] else []
        aborted := false }
  | some es =>
    let r := scanList o lvl es st
    if r.aborted then { st := r.st, evs := r.evs, aborted := true }
    else { st := foldCnt lvl r.cnt r.st, evs := r.evs, aborted := false }

/-- The child loop of `scan_path` over the remaining entries; it stops as
soon as an iteration reaches `exit`. -/
def scanList (o : Opts) (lvl : Nat) (es : List FsEntry) (st : St) : LoopOut :=
  match es with
  | [] => { cnt := Cnt.zero, st := st, evs := [], aborted := false }
  | e :: rest =>
    let r1 := scanEntry o lvl e st
    if r1.aborted then { cnt := r1.cnt, st := r1.st, evs := r1.evs, aborted := true }
    else
      let r2 := scanList o lvl rest r1.st
      { cnt := r1.cnt.add r2.cnt, st := r2.st, evs := r1.evs ++ r2.evs
        aborted := r2.aborted }

/-- One iteration of the `scan_path` child loop (main.cpp lines 783-993).
A status failure is reported (when `-e` is on) and skipped.  Otherwise the
dispatch order of the source is: symlink first, then regular file, then
special, then directory; an entry of none of these kinds prints a
diagnostic and exits the process.  A directory computes its recursive size
when `-d` is on, prints its line, and recurses under `recurseCond`. -/
def scanEntry (o : Opts) (lvl : Nat) (e : FsEntry) (st : St) : LoopOut :=
  match e with
  | .statErr name =>
    { cnt := Cnt.zero, st := st
      evs := if o.showErrors then [Ev.errLine name] else [], aborted := false }
  | .node name isSym stype sizeRes targetRes _ openRes =>
    if isSym then
      { cnt := { Cnt.zero with symlinkCnt := 1 }, st := st
        evs :=
          if o.showSymlinks then
            match targetRes with
            | none => if o.showErrors then [Ev.errLine name] else []
            | some tgt => [Ev.symLine lvl name tgt]
          else []
        aborted := false }
    else if stype = .file then
      { cnt := { Cnt.zero with
                 regularFileCnt := 1,
                 totalFileSize := (match sizeRes with | some s => s | none => 0) }
        st := st
        evs :=
          (match sizeRes with
           | none => if o.showErrors then [Ev.errLine name] else []
           | some _ => []) ++
          (if o.showFiles then
            [Ev.fileLine lvl name (match sizeRes with | some s => (s : Int) | none => -1)]
           else [])
        aborted := false }
    else if stype = .special then
      { cnt := { Cnt.zero with specialCnt := 1 }, st := st
        evs := if o.showSpecial then [Ev.specialLine lvl name] else []
        aborted := false }
    else if stype = .dir then
      let dSz : Int := if o.showDirSize then calcDirSize openRes else -1
      if recurseCond o lvl then
        let child := scanPath o name (lvl + 1) openRes st
        { cnt := { Cnt.zero with subdirCnt := 1 }, st := child.st
          evs := Ev.dirLine lvl name dSz :: child.evs, aborted := child.aborted }
      else
        { cnt := { Cnt.zero with subdirCnt := 1 }, st := st
          evs := [Ev.dirLine lvl name dSz], aborted := false }
    else
      { cnt := Cnt.zero, st := st, evs := [Ev.outLine name], aborted := true }

end

/-- The search-mode name test (main.cpp lines 1211-1219): `-S` compares the
full filename, `--search-noext` compares the stem, and otherwise (the
`--contains` mode, the only remaining way into `search_path`) the pattern is
searched for inside the filename via `check_contains`. -/
def searchMatches (o : Opts) (name : String) : Bool :=
  if o.searchExact then name == o.searchPattern
  else if o.searchNoext then stemStr name == o.searchPattern
  else hasSubData o.searchPattern.data name.data

/-- The traversed-counter dispatch of `search_path` (main.cpp lines
1198-1209): every successfully statted entry increments the `sNum*Total`
counter of its priority kind (symlink first, then file, special,
directory); an entry of no known kind increments nothing. -/
def travIncr (isSym : Bool) (stype : StatType) (st : St) : St :=
  if isSym then { st with numSymlinksTotal := st.numSymlinksTotal + 1 }
  else if stype = .file then { st with numFilesTotal := st.numFilesTotal + 1 }
  else if stype = .special then { st with numSpecialTotal := st.numSpecialTotal + 1 }
  else if stype = .dir then { st with numDirsTotal := st.numDirsTotal + 1 }
  else st

/-- The matched-counter dispatch of `search_path` (main.cpp lines
1221-1237), run when the name matches: a symlink with `-l` counts as a
matched symlink; otherwise an entry whose followed status is a regular file
counts with `-f`, a special with `-s`, and a directory always; if no branch
fires, the match is cancelled (`isMatch = false`).  Returns the updated
state and the surviving match flag. -/
def matchIncr (o : Opts) (isSym : Bool) (stype : StatType) (st : St) : St × Bool :=
  if isSym && o.showSymlinks then
    ({ st with numSymlinksMatched := st.numSymlinksMatched + 1 }, true)
  else if stype == .file && o.showFiles then
    ({ st with numFilesMatched := st.numFilesMatched + 1 }, true)
  else if stype == .special && o.showSpecial then
    ({ st with numSpecialMatched := st.numSpecialMatched + 1 }, true)
  else if stype == .dir then
    ({ st with numDirsMatched := st.numDirsMatched + 1 }, true)
  else (st, false)

/-- Result of one `search_path` activation; `search_path` never reaches an
`exit` call inside its loop, so there is no abort flag. -/
structure SearchOut where
  st : St
  evs : List Ev
deriving DecidableEq

/-- The line a surviving match prints (main.cpp lines 1239-1332), after
`fs::canonical` succeeded.  The kind dispatch again tests the symlink flag
first; the symlink line prints `targetPath`, a variable that `search_path`
never assigns, hence the empty target string.  A matched file queries its
size here (a failure prints the `-1` sentinel); a matched directory
computes its recursive size when `-d` is on. -/
def searchMatchEvs (o : Opts) (lvl : Nat) (name : String) (isSym : Bool)
    (stype : StatType) (sizeRes : Option Nat)
    (openRes : Option (List FsEntry)) : List Ev :=
  if isSym then [Ev.symLine lvl name ""]
  else if stype = .file then
    match sizeRes with
    | none => (if o.showErrors then [Ev.errLine name] else []) ++ [Ev.fileLine lvl name (-1)]
    | some s => [Ev.fileLine lvl name (s : Int)]
  else if stype = .special then [Ev.specialLine lvl name]
  else if stype = .dir then
    [Ev.dirLine lvl name (if o.showDirSize then calcDirSize openRes else -1)]
  else []

/-- The classify-and-match step of one `search_path` iteration: increment
the traversed counter of the entry's kind, test the name against the
pattern, and on a match run the matched-counter dispatch; returns the
updated state and the surviving match flag. -/
def searchStep (o : Opts) (name : String) (isSym : Bool) (stype : StatType)
    (st : St) : St × Bool :=
  let st1 := travIncr isSym stype st
  let m0 := searchMatches o name
  if m0 then matchIncr o isSym stype st1 else (st1, false)

/-- What a surviving match prints: its kind line after `fs::canonical`
succeeded, or an error report (when `-e` is on) when it failed. -/
def matchPrintEvs (o : Opts) (lvl : Nat) (name : String) (isSym : Bool)
    (stype : StatType) (sizeRes : Option Nat) (canonOk : Bool)
    (openRes : Option (List FsEntry)) : List Ev :=
  if canonOk then searchMatchEvs o lvl name isSym stype sizeRes openRes
  else if o.showErrors then [Ev.errLine name] else []

mutual

/-- Embedding of `search_path` (main.cpp lines 1117-1340) on the
directory-iterator construction result for `path`.  A failed construction
reports the error only when `-e` is on, clears `sPrintSummary` when at the
root level, and returns; otherwise the child loop runs. -/
def searchPath (o : Opts) (path : String) (lvl : Nat)
    (openRes : Option (List FsEntry)) (st : St) : SearchOut :=
  match openRes with
  | none =>
    { st := if lvl = 0 then { st with printSummary := false } else st
      evs := if o.showErrors then [Ev.errLine path] else [] }
  | some es => searchList o lvl es st

/-- The child loop of `search_path` over the remaining entries. -/
def searchList (o : Opts) (lvl : Nat) (es : List FsEntry) (st : St) : SearchOut :=
  match es with
  | [] => { st := st, evs := [] }
  | e :: rest =>
    let r1 := searchEntry o lvl e st
    let r2 := searchList o lvl rest r1.st
    { st := r2.st, evs := r1.evs ++ r2.evs }

/-- One iteration of the `search_path` child loop: a status failure is
reported (when `-e` is on) and skipped; otherwise the traversed counter of
the entry's kind is incremented, the name is tested against the pattern,
a surviving match increments its matched counter and prints its line
(suppressed when `fs::canonical` fails, which only reports when `-e` is
on), and finally the walker recurses into non-symlink directories under
`recurseCond`. -/
def searchEntry (o : Opts) (lvl : Nat) (e : FsEntry) (st : St) : SearchOut :=
  match e with
  | .statErr name =>
    { st := st, evs := if o.showErrors then [Ev.errLine name] else [] }
  | .node name isSym stype sizeRes _ canonOk openRes =>
    let p := searchStep o name isSym stype st
    let evs2 :=
      if p.2 then matchPrintEvs o lvl name isSym stype sizeRes canonOk openRes
      else []
    if stype = .dir ∧ isSym = false ∧ recurseCond o lvl = true then
      let child := searchPath o name (lvl + 1) openRes p.1
      { st := child.st, evs := evs2 ++ child.evs }
    else { st := p.1, evs := evs2 }

end

/-- Embedding of `scan_path_init` (main.cpp lines 1348-1403): set
`sPrintSummary`, run the walk from level 0, and afterwards print the
root-level summary block and, when recursion is on, the all-levels block —
unless the walk cleared `sPrintSummary` (or the process exited inside the
walk, in which case execution never returns here). -/
def scanPathInit (o : Opts) (path : String)
    (openRes : Option (List FsEntry)) (st0 : St) : ScanOut :=
  let r := scanPath o path 0 openRes { st0 with printSummary := true }
  if r.aborted then r
  else if r.st.printSummary = false then r
  else
    { r with evs := r.evs ++
        [Ev.summaryLine r.st.numFilesRoot r.st.numSymlinksRoot
          r.st.numSpecialRoot r.st.numDirsRoot] ++
        (if o.showRecursive then
          [Ev.recSummaryLine r.st.numFilesTotal r.st.numSymlinksTotal
            r.st.numSpecialTotal r.st.numDirsTotal]
         else []) }

/-- Embedding of `search_path_init` (main.cpp lines 1411-1466): set
`sPrintSummary`, run the search walk from level 0, and afterwards print the
matched-entries block and the traversed-entries block — unless the walk
cleared `sPrintSummary`. -/
def searchPathInit (o : Opts) (path : String)
    (openRes : Option (List FsEntry)) (st0 : St) : SearchOut :=
  let r := searchPath o path 0 openRes { st0 with printSummary := true }
  if r.st.printSummary = false then r
  else
    { r with evs := r.evs ++
        [Ev.searchSummaryLine r.st.numFilesMatched r.st.numSymlinksMatched
          r.st.numSpecialMatched r.st.numDirsMatched,
         Ev.travSummaryLine r.st.numFilesTotal r.st.numSymlinksTotal
          r.st.numSpecialTotal r.st.numDirsTotal] }

/-!
Graph view of the filesystem, for the cycle-safety / termination claim.
The tree type `FsEntry` cannot contain a symlink to its own ancestor, so
for that claim the filesystem is instead a map from node identifiers to
directory-open results, and every entry names its target node.  Symlink
entries may point anywhere — in particular at their own directory or an
ancestor, producing a cyclic graph.  The walkers below are the same
per-entry logic as `scan_path` / `calc_dir_size`, written against this
graph with an explicit fuel budget; running out of fuel yields `none`.
-/

/-- One directory entry in the graph view: the status-query success flag,
the kind flags as in `FsEntry`, the `fs::file_size` result, and the node
identifier the entry denotes (for a directory, the node whose listing is
opened on recursion; for a symlink, its resolution target). -/
structure GEntry where
  statOk : Bool
  isSym : Bool
  stype : StatType
  sizeRes : Option Nat
  target : Nat
deriving DecidableEq

/-- A filesystem graph: the directory-iterator construction result for
every node identifier. -/
def GFs : Type := Nat → Option (List GEntry)

/-- The child loop of `calc_dir_size` in the graph view; `rec` is the
recursive call available for subdirectories.  Branch structure as in
`calcEntry`: status failures, symlinks, specials and undeterminable
entries contribute 0; regular files contribute their readable size; a
non-symlink directory contributes its recursive size unless that is the
`-1` sentinel. -/
def calcGLoop (rec : Nat → Option Int) : List GEntry → Option Int
  | [] => some 0
  | e :: rest =>
    let tail := calcGLoop rec rest
    if e.statOk = false then tail
    else if e.stype = .file then
      tail.map (fun r => (match e.sizeRes with | some s => (s : Int) | none => 0) + r)
    else if e.stype = .dir ∧ e.isSym = false then
      match rec e.target with
      | none => none
      | some c => tail.map (fun r => (if c = -1 then 0 else c) + r)
    else tail

/-- `calc_dir_size` in the graph view with a fuel budget: `none` means the
budget was exhausted; a failed directory open returns the `-1` sentinel. -/
def calcG (fs : GFs) : Nat → Nat → Option Int
  | 0, _ => none
  | fuel + 1, n =>
    match fs n with
    | none => some (-1)
    | some es => calcGLoop (calcG fs fuel) es

/-- Add per-directory counters to a still-running walker result. -/
def withCnt (c : Cnt) : Option (Except Int Cnt) → Option (Except Int Cnt)
  | none => none
  | some (.error code) => some (.error code)
  | some (.ok d) => some (.ok (c.add d))

/-- The child loop of `scan_path` in the graph view; `rec` is the recursive
call available for subdirectories.  Same dispatch as `scanEntry`: status
failures are skipped, symlinks / files / specials / directories bump their
counter (files also their readable size), an entry of no known kind exits
the process (`Except.error (-1)`), and a directory recurses under
`recurseCond`. -/
def scanGLoop (o : Opts) (lvl : Nat) (rec : Nat → Option (Except Int Cnt)) :
    List GEntry → Option (Except Int Cnt)
  | [] => some (.ok Cnt.zero)
  | e :: rest =>
    if e.statOk = false then scanGLoop o lvl rec rest
    else if e.isSym then
      withCnt { Cnt.zero with symlinkCnt := 1 } (scanGLoop o lvl rec rest)
    else if e.stype = .file then
      withCnt { Cnt.zero with
                regularFileCnt := 1,
                totalFileSize := (match e.sizeRes with | some s => s | none => 0) }
        (scanGLoop o lvl rec rest)
    else if e.stype = .special then
      withCnt { Cnt.zero with specialCnt := 1 } (scanGLoop o lvl rec rest)
    else if e.stype = .dir then
      if recurseCond o lvl then
        match rec e.target with
        | none => none
        | some (.error code) => some (.error code)
        | some (.ok _) =>
          withCnt { Cnt.zero with subdirCnt := 1 } (scanGLoop o lvl rec rest)
      else withCnt { Cnt.zero with subdirCnt := 1 } (scanGLoop o lvl rec rest)
    else some (.error (-1))

/-- `scan_path` in the graph view with a fuel budget: `none` means the
budget was exhausted; `some (.error c)` means the process exited with code
`c`; a failed directory open abandons the subtree with zero counters. -/
def scanG (fs : GFs) (o : Opts) : Nat → Nat → Nat → Option (Except Int Cnt)
  | 0, _, _ => none
  | fuel + 1, lvl, n =>
    match fs n with
    | none => some (.ok Cnt.zero)
    | some es => scanGLoop o lvl (scanG fs o fuel (lvl + 1)) es

/-- A rank function witnessing that the plain (non-symlink) directory
hierarchy of a filesystem graph is well-founded: every successfully statted
non-symlink subdirectory entry has strictly smaller rank than the directory
listing it.  Symlink entries are unconstrained — a symlink may point at its
own directory or an ancestor. -/
def DirRanked (fs : GFs) (rank : Nat → Nat) : Prop :=
  ∀ n es e, fs n = some es → e ∈ es → e.statOk = true → e.stype = .dir →
    e.isSym = false → rank e.target < rank n

/-- The spec-level recursive directory size, following the words of the
spec (§4.2 and glossary): the sum of the byte sizes of all regular files
reachable under the directory when symlinks are never followed — symlink
entries contribute nothing, non-symlink regular files contribute their
readable size (0 on a failed size query), non-symlink subdirectories
contribute recursively (0 when their open fails), and entries with failed
status queries contribute 0.  Stated for comparison with `calc_dir_size`. -/
def noFollowSize : List FsEntry → Nat
  | [] => 0
  | .statErr _ :: rest => noFollowSize rest
  | .node _ isSym stype sizeRes _ _ openRes :: rest =>
    (if isSym = false ∧ stype = .file then
      (match sizeRes with | some s => s | none => 0) else 0) +
    (if isSym = false ∧ stype = .dir then
      (match openRes with | some cs => noFollowSize cs | none => 0) else 0) +
    noFollowSize rest

-- sanity checks on the matcher primitives
example : stemStr "report.pdf" = "report" := by decide
example : stemStr "reports.txt" = "reports" := by decide
example : stemStr ".bashrc" = ".bashrc" := by decide
example : stemStr "a.b.c" = "a.b" := by decide
example : hasSubData "ort".data "report.pdf".data = true := by decide
example : hasSubData "zz".data "report.pdf".data = false := by decide
example : calcDirSize (some [FsEntry.node "a" false .file (some 10) none true none,
    FsEntry.node "s" true .file (some 10) none true none]) = 20 := by decide

/-!  ## Helper lemmas  -/

/-- The substring scan of `check_contains` finds exactly the infix
occurrences of the pattern. -/
theorem hasSubData_iff (pat hay : List Char) :
    hasSubData pat hay = true ↔ pat <:+: hay := by
  induction hay with
  | nil =>
    simp [hasSubData, List.infix_nil, List.isEmpty_iff]
  | cons c t ih =>
    simp only [hasSubData, Bool.or_eq_true, List.isPrefixOf_iff_prefix, ih,
      List.infix_cons_iff]

/-- Example option sets used by concrete runs below. -/
def oNoext : Opts :=
  { showRecursive := false
    showFiles := false
    showSymlinks := false
    showSpecial := false
    showDirSize := false
    showErrors := false
    searchExact := false
    searchNoext := true
    recursionLevel := 0
    searchPattern := "report" }

/-!  ## Claim C8  -/

/-- **C8** — Search matcher semantics: with `-S` (exact mode) a name
matches iff it equals the pattern; with `--search-noext` (stem mode) a name
matches iff its stem — the filename with its final extension removed —
equals the pattern; otherwise (`--contains`) a name matches iff the pattern
occurs somewhere inside it (an infix of its character list). -/
theorem search_matcher_semantics :
    (∀ (o : Opts) (name : String), o.searchExact = true →
      (searchMatches o name = true ↔ name = o.searchPattern)) ∧
    (∀ (o : Opts) (name : String), o.searchExact = false → o.searchNoext = true →
      (searchMatches o name = true ↔ stemStr name = o.searchPattern)) ∧
    (∀ (o : Opts) (name : String), o.searchExact = false → o.searchNoext = false →
      (searchMatches o name = true ↔ o.searchPattern.data <:+: name.data)) := by
  refine ⟨fun o name h => ?_, fun o name h1 h2 => ?_, fun o name h1 h2 => ?_⟩
  · simp [searchMatches, h]
  · simp [searchMatches, h1, h2]
  · simp [searchMatches, h1, h2, hasSubData_iff]

/-- Witness for C8, instantiating stem mode at Scenario C of the spec:
with pattern "report", the names "report.pdf" and "report.txt" match and
"reports.txt" does not. -/
theorem search_matcher_semantics_witness :
    (searchMatches oNoext "report.pdf" = true ↔ stemStr "report.pdf" = "report") ∧
    searchMatches oNoext "report.pdf" = true ∧
    searchMatches oNoext "report.txt" = true ∧
    searchMatches oNoext "reports.txt" = false :=
  ⟨search_matcher_semantics.2.1 oNoext "report.pdf" rfl rfl,
    by decide, by decide, by decide⟩

/-!  ## Claim C10  -/

/-- Every symlink line a surviving match prints carries the empty target
string: the print block of `search_path` uses the never-assigned
`targetPath` variable. -/
theorem searchMatchEvs_sym_empty (o : Opts) (lvl : Nat) (name : String)
    (isSym : Bool) (stype : StatType) (sizeRes : Option Nat)
    (openRes : Option (List FsEntry)) :
    ∀ l n t, Ev.symLine l n t ∈ searchMatchEvs o lvl name isSym stype sizeRes openRes →
      t = "" := by
  intro l n t h
  unfold searchMatchEvs at h
  split at h
  · simp at h
    exact h.2.2
  · split at h
    · split at h <;> simp at h
    · split at h
      · simp at h
      · split at h <;> simp at h

/-- Inductive core for C10: no symlink line anywhere in a search walk
carries a non-empty target. -/
theorem searchList_sym_empty (o : Opts) (lvl0 : Nat) (es0 : List FsEntry) (st0 : St) :
    ∀ l n t, Ev.symLine l n t ∈ (searchList o lvl0 es0 st0).evs → t = "" := by
  refine searchList.induct o
    (fun path lvl openRes st =>
      ∀ l n t, Ev.symLine l n t ∈ (searchPath o path lvl openRes st).evs → t = "")
    (fun lvl es st =>
      ∀ l n t, Ev.symLine l n t ∈ (searchList o lvl es st).evs → t = "")
    (fun lvl e st =>
      ∀ l n t, Ev.symLine l n t ∈ (searchEntry o lvl e st).evs → t = "")
    ?_ ?_ ?_ ?_ ?_ ?_ ?_ lvl0 es0 st0
  · intro lvl st name l n t h
    by_cases he : o.showErrors <;> simp [searchEntry, he] at h
  · intro lvl st name isSym stype sizeRes targetRes canonOk openRes p hcond ih l n t h
    rw [searchEntry] at h
    rw [if_pos hcond] at h
    rcases List.mem_append.mp h with h2 | h2
    · rw [matchPrintEvs] at h2
      repeat' split at h2
      all_goals first
        | exact searchMatchEvs_sym_empty o lvl name isSym stype sizeRes openRes l n t h2
        | simp at h2
    · exact ih l n t h2
  · intro lvl st name isSym stype sizeRes targetRes canonOk openRes hcond l n t h
    rw [searchEntry] at h
    rw [if_neg hcond] at h
    simp only [matchPrintEvs] at h
    repeat' split at h
    all_goals first
      | exact searchMatchEvs_sym_empty o lvl name isSym stype sizeRes openRes l n t h
      | simp at h
  · intro path lvl st l n t h
    by_cases he : o.showErrors <;> simp [searchPath, he] at h
  · intro path lvl st es ih l n t h
    rw [searchPath] at h
    exact ih l n t h
  · intro lvl st l n t h
    simp [searchList] at h
  · intro lvl st e rest r1 ih1 ih2 l n t h
    rw [searchList] at h
    rcases List.mem_append.mp h with h2 | h2
    · exact ih1 l n t h2
    · exact ih2 l n t h2

/-- Search-mode options with `-l` on, exact mode, pattern "a"; used by the
C10 witness run. -/
def oSymSearch : Opts :=
  { showRecursive := false
    showFiles := false
    showSymlinks := true
    showSpecial := false
    showDirSize := false
    showErrors := false
    searchExact := true
    searchNoext := false
    recursionLevel := 0
    searchPattern := "a" }

/-- A directory containing one symlink named "a" whose readable target is
"realTarget". -/
def exSymDir : List FsEntry :=
  [FsEntry.node "a" true .file (some 3) (some "realTarget") true none]

/-- **C10** — In search mode the symlink target is never resolved:
`search_path` contains no `read_symlink` call, so every symlink line it
prints shows the empty target string after the arrow, whatever the
symlink's actual target is. -/
theorem search_symlink_target_empty (o : Opts) (path : String) (lvl : Nat)
    (openRes : Option (List FsEntry)) (st : St) :
    ∀ l n t, Ev.symLine l n t ∈ (searchPath o path lvl openRes st).evs → t = "" := by
  intro l n t h
  match openRes with
  | none => by_cases he : o.showErrors <;> simp [searchPath, he] at h
  | some es =>
    rw [searchPath] at h
    exact searchList_sym_empty o lvl es st l n t h

/-- Witness for C10: a concrete search run over a directory holding a
symlink with readable target "realTarget" does print a symlink line, and
the theorem applies to it — the printed target is empty. -/
theorem search_symlink_target_empty_witness :
    Ev.symLine 0 "a" "" ∈ (searchPath oSymSearch "r" 0 (some exSymDir) St.init).evs ∧
    ("" : String) = "" :=
  ⟨by decide,
    search_symlink_target_empty oSymSearch "r" 0 (some exSymDir) St.init 0 "a" ""
      (by decide)⟩

/-!  ## Claim C6  -/

/-- Counterexample for C6, which asserts that *all three* traversals abort
the whole process on an entry of unclassifiable kind.  In the size
calculator an unclassifiable first entry is merely skipped: the calculation
continues past it and still sums the 5-byte file behind it, and the search
walk likewise carries on, counting the file behind the unclassifiable
entry.  Only the display walk aborts. -/
theorem unknown_kind_not_fatal_cex :
    calcList [FsEntry.node "u" false .notFound none none true none,
      FsEntry.node "f" false .file (some 5) none true none] = 5 ∧
    (searchList oSymSearch 0
      [FsEntry.node "u" false .notFound none none true none,
       FsEntry.node "f" false .file (some 5) none true none] St.init).st.numFilesTotal = 1 :=
  ⟨by decide, by decide⟩

/-- **C6 (amended)** — Unknown-kind policy per traversal: the display walk
aborts the process as soon as the child loop meets an entry that is none of
regular file / directory / symlink / special, leaving all counters and the
state untouched; the size calculator skips such an entry (it contributes
nothing and the loop continues); the search walk neither aborts nor counts
it — its state and output are exactly those of the remaining entries. -/
theorem unknown_kind_policy :
    (∀ (o : Opts) (lvl : Nat) (name : String) (sz : Option Nat) (tr : Option String)
       (c : Bool) (op : Option (List FsEntry)) (rest : List FsEntry) (st : St),
      (scanList o lvl (FsEntry.node name false .notFound sz tr c op :: rest) st).aborted = true ∧
      (scanList o lvl (FsEntry.node name false .notFound sz tr c op :: rest) st).cnt = Cnt.zero ∧
      (scanList o lvl (FsEntry.node name false .notFound sz tr c op :: rest) st).st = st) ∧
    (∀ (name : String) (isSym : Bool) (sz : Option Nat) (tr : Option String)
       (c : Bool) (op : Option (List FsEntry)) (rest : List FsEntry),
      calcList (FsEntry.node name isSym .notFound sz tr c op :: rest) = calcList rest) ∧
    (∀ (o : Opts) (lvl : Nat) (name : String) (sz : Option Nat) (tr : Option String)
       (c : Bool) (op : Option (List FsEntry)) (rest : List FsEntry) (st : St),
      searchList o lvl (FsEntry.node name false .notFound sz tr c op :: rest) st =
        searchList o lvl rest st) := by
  refine ⟨fun o lvl name sz tr c op rest st => ?_, fun name isSym sz tr c op rest => ?_,
    fun o lvl name sz tr c op rest st => ?_⟩
  · refine ⟨?_, ?_, ?_⟩ <;> simp [scanList, scanEntry]
  · simp [calcList, calcEntry]
  · simp [searchList, searchEntry, searchStep, matchPrintEvs, travIncr, matchIncr]

/-!  ## Claim C5  -/

/-- The size calculator never returns a negative total for a directory it
managed to open: every loop contribution is non-negative. -/
theorem calcList_nonneg (es : List FsEntry) : 0 ≤ calcList es := by
  refine calcList.induct
    (fun op => calcDirSize op = -1 ∨ 0 ≤ calcDirSize op)
    (fun es => 0 ≤ calcList es)
    (fun e => 0 ≤ calcEntry e)
    (fun name => by simp [calcEntry])
    (fun name isSym tr c op s => by simp [calcEntry])
    (fun name isSym tr c op => by simp [calcEntry])
    (fun name isSym stype sz tr c op hnf hd hc ih => by
      simp [calcEntry, hnf, hd.1, hd.2, hc])
    (fun name isSym stype sz tr c op hnf hd hc ih => by
      rcases ih with h | h
      · exact absurd h hc
      · simpa [calcEntry, hnf, hd.1, hd.2, hc] using h)
    (fun name isSym stype sz tr c op hnf hnd => by
      simp only [calcEntry]
      rw [if_neg hnf, if_neg hnd])
    (Or.inl (by simp [calcDirSize]))
    (fun es h => Or.inr (by simpa [calcDirSize] using h))
    (by simp [calcList])
    (fun e rest h1 h2 => by simp only [calcList]; exact add_nonneg h1 h2)
    es

/-- Counterexample for C5.  The claim says `calc_size` returns the byte sum
of the regular files reachable *without following symlinks*.  But the
source tests `is_regular_file ()` — which follows symlinks — *before* any
symlink test, so a symlink to a regular file contributes its target's size.
Concretely: a directory holding a 10-byte file "a" and a symlink "s" whose
target is that same file yields 20 from `calc_dir_size`, while the spec
quantity (`noFollowSize`) is 10. -/
theorem calc_size_follows_file_symlinks_cex :
    calcDirSize (some [FsEntry.node "a" false .file (some 10) none true none,
      FsEntry.node "s" true .file (some 10) (some "a") true none]) = 20 ∧
    noFollowSize [FsEntry.node "a" false .file (some 10) none true none,
      FsEntry.node "s" true .file (some 10) (some "a") true none] = 10 :=
  ⟨by decide, by simp [noFollowSize]⟩

/-- **C5 (amended)** — Size-calculator characterisation: a failed directory
open returns the `-1` sentinel; within an opened directory the loop
contributes, entry by entry: nothing for a failed status query; nothing for
a regular-file entry whose size query fails; the read size for every entry
whose followed status is a regular file — *including a symlink to a regular
file, whose target size is read through the link*; the whole recursive
total of a non-symlink subdirectory (a subdirectory whose own open fails
contributes nothing, since its call returns the sentinel); and nothing for
symlinks to directories, special entries, or entries of unknown kind. -/
theorem calc_dir_size_characterisation :
    (calcDirSize none = -1) ∧
    (∀ es, calcDirSize (some es) = calcList es) ∧
    (∀ (n : String) (rest : List FsEntry),
      calcList (.statErr n :: rest) = calcList rest) ∧
    (∀ (n : String) (isSym : Bool) (tr : Option String) (c : Bool)
       (op : Option (List FsEntry)) (rest : List FsEntry),
      calcList (.node n isSym .file none tr c op :: rest) = calcList rest) ∧
    (∀ (n : String) (isSym : Bool) (s : Nat) (tr : Option String) (c : Bool)
       (op : Option (List FsEntry)) (rest : List FsEntry),
      calcList (.node n isSym .file (some s) tr c op :: rest) = s + calcList rest) ∧
    (∀ (n : String) (sz : Option Nat) (tr : Option String) (c : Bool)
       (rest : List FsEntry),
      calcList (.node n false .dir sz tr c none :: rest) = calcList rest) ∧
    (∀ (n : String) (sz : Option Nat) (tr : Option String) (c : Bool)
       (cs : List FsEntry) (rest : List FsEntry),
      calcList (.node n false .dir sz tr c (some cs) :: rest) =
        calcList cs + calcList rest) ∧
    (∀ (n : String) (sz : Option Nat) (tr : Option String) (c : Bool)
       (op : Option (List FsEntry)) (rest : List FsEntry),
      calcList (.node n true .dir sz tr c op :: rest) = calcList rest) ∧
    (∀ (n : String) (isSym : Bool) (sz : Option Nat) (tr : Option String) (c : Bool)
       (op : Option (List FsEntry)) (rest : List FsEntry),
      calcList (.node n isSym .special sz tr c op :: rest) = calcList rest) := by
  refine ⟨rfl, fun es => rfl, fun n rest => by simp [calcList, calcEntry],
    fun n isSym tr c op rest => by simp [calcList, calcEntry],
    fun n isSym s tr c op rest => by simp [calcList, calcEntry],
    fun n sz tr c rest => by simp [calcList, calcEntry, calcDirSize],
    fun n sz tr c cs rest => ?_,
    fun n sz tr c op rest => by simp [calcList, calcEntry],
    fun n isSym sz tr c op rest => by simp [calcList, calcEntry]⟩
  have hnn := calcList_nonneg cs
  have hne : ¬ calcList cs = -1 := by omega
  simp [calcList, calcEntry, calcDirSize, hne]

/-!  ## Claims C9 and C1: the kind dispatch of the display walk  -/

/-- The per-directory counter delta of one successfully statted entry, in
the dispatch priority of `scan_path`: symlink first, then regular file,
then special, then directory; an unclassifiable entry contributes nothing
(the loop aborts there). -/
theorem scanEntry_cnt_eq (o : Opts) (lvl : Nat) (name : String) (isSym : Bool)
    (stype : StatType) (sizeRes : Option Nat) (targetRes : Option String)
    (canonOk : Bool) (openRes : Option (List FsEntry)) (st : St) :
    (scanEntry o lvl (.node name isSym stype sizeRes targetRes canonOk openRes) st).cnt =
      (if isSym then { Cnt.zero with symlinkCnt := 1 }
       else if stype = .file then
        { Cnt.zero with
          regularFileCnt := 1,
          totalFileSize := (match sizeRes with | some s => s | none => 0) }
       else if stype = .special then { Cnt.zero with specialCnt := 1 }
       else if stype = .dir then { Cnt.zero with subdirCnt := 1 }
       else Cnt.zero) := by
  cases isSym
  · cases stype <;> simp [scanEntry]
    split <;> rfl
  · simp [scanEntry]

/-- An unclassifiable entry (not a symlink, followed status none of file /
special / directory) makes the display walk exit the process. -/
theorem scanEntry_notFound_aborted (o : Opts) (lvl : Nat) (name : String)
    (sizeRes : Option Nat) (targetRes : Option String) (canonOk : Bool)
    (openRes : Option (List FsEntry)) (st : St) :
    (scanEntry o lvl (.node name false .notFound sizeRes targetRes canonOk openRes) st).aborted
      = true := by
  simp [scanEntry]

/-- A successfully statted entry on which the loop does not abort
increments exactly one of the four per-directory counters. -/
theorem scanEntry_cnt_one (o : Opts) (lvl : Nat) (e : FsEntry) (st : St)
    (hse : e.isStatErr = false)
    (hab : (scanEntry o lvl e st).aborted = false) :
    (scanEntry o lvl e st).cnt.regularFileCnt + (scanEntry o lvl e st).cnt.symlinkCnt +
      (scanEntry o lvl e st).cnt.specialCnt + (scanEntry o lvl e st).cnt.subdirCnt = 1 := by
  match e with
  | .statErr n => simp [FsEntry.isStatErr] at hse
  | .node n isSym stype sz tr c op =>
    rw [scanEntry_cnt_eq]
    cases isSym
    · cases stype
      · simp [Cnt.zero]
      · simp [Cnt.zero]
      · simp [Cnt.zero]
      · rw [scanEntry_notFound_aborted] at hab
        cases hab
    · simp [Cnt.zero]

/-- **C9** — Exactly one kind per entry: a successfully statted entry on
which the display walk does not abort increments exactly one of the four
per-directory counters, dispatched with priority symlink over file over
special over directory; in particular a symlink entry — whatever its
followed status, directory or regular file — increments only the symlink
counter. -/
theorem entry_unique_kind (o : Opts) (lvl : Nat) (name : String) (isSym : Bool)
    (stype : StatType) (sizeRes : Option Nat) (targetRes : Option String)
    (canonOk : Bool) (openRes : Option (List FsEntry)) (st : St)
    (hab : (scanEntry o lvl (.node name isSym stype sizeRes targetRes canonOk openRes) st).aborted
      = false) :
    ((scanEntry o lvl (.node name isSym stype sizeRes targetRes canonOk openRes) st).cnt.regularFileCnt +
     (scanEntry o lvl (.node name isSym stype sizeRes targetRes canonOk openRes) st).cnt.symlinkCnt +
     (scanEntry o lvl (.node name isSym stype sizeRes targetRes canonOk openRes) st).cnt.specialCnt +
     (scanEntry o lvl (.node name isSym stype sizeRes targetRes canonOk openRes) st).cnt.subdirCnt = 1) ∧
    (isSym = true →
      (scanEntry o lvl (.node name isSym stype sizeRes targetRes canonOk openRes) st).cnt =
        { Cnt.zero with symlinkCnt := 1 }) ∧
    (isSym = false → stype = .file →
      (scanEntry o lvl (.node name isSym stype sizeRes targetRes canonOk openRes) st).cnt.regularFileCnt = 1) ∧
    (isSym = false → stype = .special →
      (scanEntry o lvl (.node name isSym stype sizeRes targetRes canonOk openRes) st).cnt.specialCnt = 1) ∧
    (isSym = false → stype = .dir →
      (scanEntry o lvl (.node name isSym stype sizeRes targetRes canonOk openRes) st).cnt.subdirCnt = 1) := by
  refine ⟨scanEntry_cnt_one o lvl _ st rfl hab, ?_, ?_, ?_, ?_⟩
  · intro hs
    subst hs
    rw [scanEntry_cnt_eq]
    rfl
  · intro hs ht
    subst hs; subst ht
    rw [scanEntry_cnt_eq]
    rfl
  · intro hs ht
    subst hs; subst ht
    rw [scanEntry_cnt_eq]
    rfl
  · intro hs ht
    subst hs; subst ht
    rw [scanEntry_cnt_eq]
    rfl

/-- Witness for C9: the theorem applied to a concrete symlink entry whose
followed status is a directory — only the symlink counter is bumped. -/
theorem entry_unique_kind_witness :
    ((scanEntry oSymSearch 0 (.node "s" true .dir none (some "t") true none) St.init).aborted
      = false) ∧
    (scanEntry oSymSearch 0 (.node "s" true .dir none (some "t") true none) St.init).cnt =
      { Cnt.zero with symlinkCnt := 1 } :=
  ⟨by decide,
    (entry_unique_kind oSymSearch 0 "s" true .dir none (some "t") true none St.init
      (by decide)).2.1 rfl⟩

/-- **C1** — Completeness of per-directory counting: when the directory
iteration succeeded (the child loop ran over `es`), no per-entry status
query failed, and the walk did not abort, the per-directory counters after
the child loop satisfy
`file_count + symlink_count + special_count + subdir_count = es.length`:
each successfully classified entry increments exactly one of the four. -/
theorem scan_counts_complete (o : Opts) (lvl : Nat) (es : List FsEntry) (st : St)
    (hstat : ∀ e ∈ es, e.isStatErr = false)
    (hab : (scanList o lvl es st).aborted = false) :
    (scanList o lvl es st).cnt.regularFileCnt + (scanList o lvl es st).cnt.symlinkCnt +
      (scanList o lvl es st).cnt.specialCnt + (scanList o lvl es st).cnt.subdirCnt
      = es.length := by
  revert hstat hab
  induction es generalizing st with
  | nil =>
    intro hstat hab
    simp [scanList, Cnt.zero]
  | cons e rest ih =>
    intro hstat hab
    simp only [scanList] at hab ⊢
    by_cases h1 : (scanEntry o lvl e st).aborted = true
    · rw [if_pos h1] at hab
      simp at hab
    · rw [if_neg h1] at hab ⊢
      simp only at hab ⊢
      have hone := scanEntry_cnt_one o lvl e st (hstat e (List.mem_cons_self e rest))
        (by simpa using h1)
      have ihx := ih ((scanEntry o lvl e st).st)
        (fun x hx => hstat x (List.mem_cons_of_mem _ hx)) (by simpa using hab)
      simp only [Cnt.add, List.length_cons]
      omega

/-- Display options for the witness runs of the display walk: recursion on,
unlimited depth, every visibility flag on. -/
def oScanAll : Opts :=
  { showRecursive := true
    showFiles := true
    showSymlinks := true
    showSpecial := true
    showDirSize := true
    showErrors := true
    searchExact := false
    searchNoext := false
    recursionLevel := 0
    searchPattern := "" }

/-- A concrete directory with one entry of each kind: a 3-byte file, a
symlink to a directory, a special file, and a subdirectory holding a 4-byte
file. -/
def exScanDir : List FsEntry :=
  [FsEntry.node "f" false .file (some 3) none true none,
   FsEntry.node "l" true .dir none (some "t") true none,
   FsEntry.node "sp" false .special none none true none,
   FsEntry.node "d" false .dir none none true
     (some [FsEntry.node "g" false .file (some 4) none true none])]

/-- Witness for C1: on the four-entry directory above (scanned with
recursion on, so the subdirectory's child is also walked) the four counters
of the top-level loop sum to exactly 4. -/
theorem scan_counts_complete_witness :
    (∀ e ∈ exScanDir, e.isStatErr = false) ∧
    (scanList oScanAll 0 exScanDir St.init).aborted = false ∧
    (scanList oScanAll 0 exScanDir St.init).cnt.regularFileCnt +
      (scanList oScanAll 0 exScanDir St.init).cnt.symlinkCnt +
      (scanList oScanAll 0 exScanDir St.init).cnt.specialCnt +
      (scanList oScanAll 0 exScanDir St.init).cnt.subdirCnt = exScanDir.length :=
  ⟨by decide, by decide,
    scan_counts_complete oScanAll 0 exScanDir St.init (by decide) (by decide)⟩

/-!  ## Claim C2: matched versus traversed counters in search mode  -/

/-- The sum of the four matched counters of a state. -/
def St.matchedSum (st : St) : Nat :=
  st.numFilesMatched + st.numSymlinksMatched + st.numSpecialMatched + st.numDirsMatched

/-- The sum of the four traversed counters of a state. -/
def St.travSum (st : St) : Nat :=
  st.numFilesTotal + st.numSymlinksTotal + st.numSpecialTotal + st.numDirsTotal

/-- Search options for the C2 counterexample: exact search for "a" with
`--files` on but `--symlinks` off. -/
def oFileNoSym : Opts :=
  { showRecursive := false
    showFiles := true
    showSymlinks := false
    showSpecial := false
    showDirSize := false
    showErrors := false
    searchExact := true
    searchNoext := false
    recursionLevel := 0
    searchPattern := "a" }

/-- Counterexample for C2 as stated (`matched_k ≤ traversed_k` per kind):
searching a directory whose only entry is a symlink named "a" that resolves
to a regular file, with `--files` on and `--symlinks` off, classifies the
entry as a traversed *symlink*, but the matched-counter chain falls through
the disabled symlink branch into the file branch, so `matched_files = 1`
while `traversed_files = 0`. -/
theorem search_matched_exceeds_traversed_cex :
    (searchList oFileNoSym 0
      [FsEntry.node "a" true .file (some 3) (some "t") true none] St.init).st.numFilesMatched = 1 ∧
    (searchList oFileNoSym 0
      [FsEntry.node "a" true .file (some 3) (some "t") true none] St.init).st.numFilesTotal = 0 ∧
    (searchList oFileNoSym 0
      [FsEntry.node "a" true .file (some 3) (some "t") true none] St.init).st.numSymlinksTotal = 1 :=
  ⟨by decide, by decide, by decide⟩

/-- The traversed-counter dispatch never touches a matched counter. -/
theorem travIncr_matchedSum (isSym : Bool) (stype : StatType) (st : St) :
    (travIncr isSym stype st).matchedSum = st.matchedSum := by
  cases isSym <;> cases stype <;> simp [travIncr, St.matchedSum]

/-- The traversed-counter dispatch adds exactly one to the traversed sum
for every classifiable entry and nothing for an unknown-kind entry. -/
theorem travIncr_travSum (isSym : Bool) (stype : StatType) (st : St) :
    (travIncr isSym stype st).travSum =
      st.travSum + (if isSym = true ∨ stype ≠ .notFound then 1 else 0) := by
  cases isSym <;> cases stype <;> simp [travIncr, St.travSum] <;> omega

/-- The matched-counter dispatch never touches a traversed counter. -/
theorem matchIncr_travSum (o : Opts) (isSym : Bool) (stype : StatType) (st : St) :
    (matchIncr o isSym stype st).1.travSum = st.travSum := by
  simp only [matchIncr]
  repeat' split
  all_goals simp [St.travSum]

/-- The matched-counter dispatch adds at most one to the matched sum. -/
theorem matchIncr_matchedSum_le (o : Opts) (isSym : Bool) (stype : StatType) (st : St) :
    (matchIncr o isSym stype st).1.matchedSum ≤ st.matchedSum + 1 := by
  simp only [matchIncr]
  repeat' split
  all_goals simp [St.matchedSum]
  all_goals omega

/-- The matched-counter dispatch cancels the match (and counts nothing) on
an unknown-kind entry. -/
theorem matchIncr_notFound (o : Opts) (st : St) :
    matchIncr o false .notFound st = (st, false) := by
  simp [matchIncr]

/-- One classify-and-match step of `search_path` (traversed increment
followed by the conditional matched increment) raises the matched sum by at
most as much as the traversed sum. -/
theorem search_step_delta (o : Opts) (name : String) (isSym : Bool)
    (stype : StatType) (st : St) :
    (searchStep o name isSym stype st).1.matchedSum + st.travSum ≤
      (searchStep o name isSym stype st).1.travSum + st.matchedSum := by
  rw [searchStep]
  by_cases hb : searchMatches o name = true
  case neg =>
    rw [if_neg hb]
    rw [travIncr_matchedSum, travIncr_travSum]
    split <;> omega
  case pos =>
    rw [if_pos hb]
    by_cases hu : isSym = false ∧ stype = .notFound
    · rcases hu with ⟨h1, h2⟩
      subst h1; subst h2
      rw [matchIncr_notFound]
      rw [travIncr_matchedSum, travIncr_travSum]
      simp
      omega
    · have hm := matchIncr_matchedSum_le o isSym stype (travIncr isSym stype st)
      have ht := matchIncr_travSum o isSym stype (travIncr isSym stype st)
      rw [travIncr_matchedSum] at hm
      rw [travIncr_travSum] at ht
      have hcls : isSym = true ∨ stype ≠ .notFound := by
        rcases Bool.eq_false_or_eq_true isSym with h | h
        · exact Or.inl h
        · right
          intro hc
          exact hu ⟨h, hc⟩
      rw [if_pos hcls] at ht
      omega

/-- Chaining two matched/traversed deltas. -/
theorem delta_chain {m0 t0 m1 t1 m2 t2 : Nat} (h1 : m1 + t0 ≤ t1 + m0)
    (h2 : m2 + t1 ≤ t2 + m1) : m2 + t0 ≤ t2 + m0 := by omega

/-- Across a whole `search_path` activation the matched sum rises by at
most as much as the traversed sum. -/
theorem searchPath_delta (o : Opts) (path0 : String) (lvl0 : Nat)
    (openRes0 : Option (List FsEntry)) (st0 : St) :
    (searchPath o path0 lvl0 openRes0 st0).st.matchedSum + st0.travSum ≤
      (searchPath o path0 lvl0 openRes0 st0).st.travSum + st0.matchedSum := by
  refine searchPath.induct o
    (fun path lvl openRes st =>
      (searchPath o path lvl openRes st).st.matchedSum + st.travSum ≤
        (searchPath o path lvl openRes st).st.travSum + st.matchedSum)
    (fun lvl es st =>
      (searchList o lvl es st).st.matchedSum + st.travSum ≤
        (searchList o lvl es st).st.travSum + st.matchedSum)
    (fun lvl e st =>
      (searchEntry o lvl e st).st.matchedSum + st.travSum ≤
        (searchEntry o lvl e st).st.travSum + st.matchedSum)
    ?_ ?_ ?_ ?_ ?_ ?_ ?_ path0 lvl0 openRes0 st0
  · intro lvl st name
    rw [searchEntry]
    show st.matchedSum + st.travSum ≤ st.travSum + st.matchedSum
    omega
  · intro lvl st name isSym stype sizeRes targetRes canonOk openRes p hcond ih
    have hstep := search_step_delta o name isSym stype st
    rw [searchEntry, if_pos hcond]
    exact delta_chain hstep ih
  · intro lvl st name isSym stype sizeRes targetRes canonOk openRes hcond
    rw [searchEntry, if_neg hcond]
    exact search_step_delta o name isSym stype st
  · intro path lvl st
    rw [searchPath]
    by_cases hl : lvl = 0 <;> simp [hl, St.matchedSum, St.travSum] <;> omega
  · intro path lvl st es ih
    rw [searchPath]
    exact ih
  · intro lvl st
    rw [searchList]
    show st.matchedSum + st.travSum ≤ st.travSum + st.matchedSum
    omega
  · intro lvl st e rest r1 ih1 ih2
    rw [searchList]
    exact delta_chain ih1 ih2

/-- **C2 (amended)** — Search totals invariant, aggregate form: every
classified entry increments exactly one traversed counter (symlink-first
priority) and a match increments at most one matched counter, so across any
search walk the *total* matched count stays below the *total* traversed
count whenever it starts that way (in a real run both start at zero).  The
per-kind inequality `matched_k ≤ traversed_k` does *not* hold in general:
when symlink visibility is off, a matched symlink falls through to the
branch of its followed-status kind (see the counterexample). -/
theorem search_total_matched_le_traversed (o : Opts) (path : String) (lvl : Nat)
    (openRes : Option (List FsEntry)) (st : St)
    (hinv : st.matchedSum ≤ st.travSum) :
    (searchPath o path lvl openRes st).st.matchedSum ≤
      (searchPath o path lvl openRes st).st.travSum := by
  have h := searchPath_delta o path lvl openRes st
  omega

/-- Witness for C2 (amended): a concrete search run from the zero state —
the run of the counterexample, where the per-kind inequality fails — still
satisfies the aggregate inequality. -/
theorem search_total_matched_le_traversed_witness :
    St.init.matchedSum ≤ St.init.travSum ∧
    (searchPath oFileNoSym "r" 0
      (some [FsEntry.node "a" true .file (some 3) (some "t") true none])
      St.init).st.matchedSum ≤
    (searchPath oFileNoSym "r" 0
      (some [FsEntry.node "a" true .file (some 3) (some "t") true none])
      St.init).st.travSum :=
  ⟨by decide,
    search_total_matched_le_traversed oFileNoSym "r" 0
      (some [FsEntry.node "a" true .file (some 3) (some "t") true none])
      St.init (by decide)⟩

/-!  ## Claim C4: the depth limit  -/

/-- The recursion guard, spelled out: recursion enabled, and depth limit 0
(unlimited) or current level below the limit. -/
theorem recurseCond_iff (o : Opts) (lvl : Nat) :
    recurseCond o lvl = true ↔
      o.showRecursive = true ∧ (o.recursionLevel = 0 ∨ lvl < o.recursionLevel) := by
  simp [recurseCond]

/-- With a nonzero depth limit, the recursion guard forces the current
level strictly below the limit. -/
theorem recurseCond_lt (o : Opts) (lvl : Nat) (hN : o.recursionLevel ≠ 0)
    (h : recurseCond o lvl = true) : lvl < o.recursionLevel := by
  rw [recurseCond_iff] at h
  rcases h.2 with h2 | h2
  · exact absurd h2 hN
  · exact h2

/-- Every per-entry line a surviving match prints carries the emitting
call's level. -/
theorem searchMatchEvs_lvl (o : Opts) (lvl : Nat) (name : String) (isSym : Bool)
    (stype : StatType) (sizeRes : Option Nat) (openRes : Option (List FsEntry)) :
    ∀ ev ∈ searchMatchEvs o lvl name isSym stype sizeRes openRes,
      ∀ l, ev.lvl? = some l → l = lvl := by
  intro ev hev l hl
  unfold searchMatchEvs at hev
  repeat' split at hev
  all_goals try simp_all [Ev.lvl?]
  all_goals (rcases hev with h | h <;> simp_all [Ev.lvl?])

/-- As `searchMatchEvs_lvl`, including the canonicalisation-failure path. -/
theorem matchPrintEvs_lvl (o : Opts) (lvl : Nat) (name : String) (isSym : Bool)
    (stype : StatType) (sizeRes : Option Nat) (canonOk : Bool)
    (openRes : Option (List FsEntry)) :
    ∀ ev ∈ matchPrintEvs o lvl name isSym stype sizeRes canonOk openRes,
      ∀ l, ev.lvl? = some l → l = lvl := by
  intro ev hev l hl
  rw [matchPrintEvs] at hev
  split at hev
  · exact searchMatchEvs_lvl o lvl name isSym stype sizeRes openRes ev hev l hl
  · split at hev <;> simp_all [Ev.lvl?]

/-- Level bound for the display walk: with a nonzero depth limit, a call at
a level within the limit only ever prints per-entry lines at levels within
the limit. -/
theorem scan_level_bound (o : Opts) (hN : o.recursionLevel ≠ 0)
    (path0 : String) (lvl0 : Nat) (openRes0 : Option (List FsEntry)) (st0 : St) :
    lvl0 ≤ o.recursionLevel →
    ∀ ev ∈ (scanPath o path0 lvl0 openRes0 st0).evs, ∀ l, ev.lvl? = some l →
      l ≤ o.recursionLevel := by
  refine scanPath.induct o
    (fun path lvl openRes st => lvl ≤ o.recursionLevel →
      ∀ ev ∈ (scanPath o path lvl openRes st).evs, ∀ l, ev.lvl? = some l →
        l ≤ o.recursionLevel)
    (fun lvl es st => lvl ≤ o.recursionLevel →
      ∀ ev ∈ (scanList o lvl es st).evs, ∀ l, ev.lvl? = some l →
        l ≤ o.recursionLevel)
    (fun lvl e st => lvl ≤ o.recursionLevel →
      ∀ ev ∈ (scanEntry o lvl e st).evs, ∀ l, ev.lvl? = some l →
        l ≤ o.recursionLevel)
    ?_ ?_ ?_ ?_ ?_ ?_ ?_ ?_ ?_ ?_ ?_ ?_ ?_ ?_ path0 lvl0 openRes0 st0
  · intro lvl st name hlvl ev hev l hl
    rw [scanEntry] at hev
    repeat' split at hev
    all_goals simp_all [Ev.lvl?]
  · intro lvl st name stype sizeRes targetRes canonOk openRes hlvl ev hev l hl
    simp only [scanEntry.eq_def] at hev
    repeat' split at hev
    all_goals simp_all [Ev.lvl?]
  · intro lvl st name isSym sizeRes targetRes canonOk openRes hsym hlvl ev hev l hl
    rw [Bool.not_eq_true] at hsym
    subst hsym
    simp only [scanEntry.eq_def] at hev
    repeat' split at hev
    all_goals try simp_all [Ev.lvl?]
    all_goals (rcases hev with h | h <;> simp_all [Ev.lvl?])
  · intro lvl st name isSym sizeRes targetRes canonOk openRes hsym hne hlvl ev hev l hl
    rw [Bool.not_eq_true] at hsym
    subst hsym
    simp only [scanEntry.eq_def] at hev
    repeat' split at hev
    all_goals simp_all [Ev.lvl?]
  · intro lvl st name isSym sizeRes targetRes canonOk openRes hsym hrec hne1 hne2 ih
    intro hlvl ev hev l hl
    rw [Bool.not_eq_true] at hsym
    subst hsym
    simp only [scanEntry.eq_def, hrec] at hev
    simp at hev
    have hlt : lvl < o.recursionLevel := recurseCond_lt o lvl hN hrec
    rcases hev with h | h
    · subst h
      simp [Ev.lvl?] at hl
      omega
    · exact ih (by omega) ev h l hl
  · intro lvl st name isSym sizeRes targetRes canonOk openRes hsym hrec hne1 hne2
    intro hlvl ev hev l hl
    rw [Bool.not_eq_true] at hsym
    subst hsym
    simp only [scanEntry.eq_def, hrec] at hev
    repeat' split at hev
    all_goals simp_all [Ev.lvl?]
  · intro lvl st name isSym stype sizeRes targetRes canonOk openRes hsym hne1 hne2 hne3
    intro hlvl ev hev l hl
    rw [Bool.not_eq_true] at hsym
    subst hsym
    simp only [scanEntry.eq_def] at hev
    repeat' split at hev
    all_goals simp_all [Ev.lvl?]
  · intro path st hlvl ev hev l hl
    rw [scanPath] at hev
    repeat' split at hev
    all_goals simp_all [Ev.lvl?]
  · intro path lvl st hne hlvl ev hev l hl
    rw [scanPath] at hev
    repeat' split at hev
    all_goals simp_all [Ev.lvl?]
  · intro path lvl st es r habort ih hlvl ev hev l hl
    rw [scanPath] at hev
    split at hev
    · exact ih hlvl ev hev l hl
    · exact ih hlvl ev hev l hl
  · intro path lvl st es r habort ih hlvl ev hev l hl
    rw [scanPath] at hev
    split at hev
    · exact ih hlvl ev hev l hl
    · exact ih hlvl ev hev l hl
  · intro lvl st hlvl ev hev l hl
    rw [scanList] at hev
    simp at hev
  · intro lvl st e rest r1 habort ih3 hlvl ev hev l hl
    rw [scanList] at hev
    split at hev
    · exact ih3 hlvl ev hev l hl
    · rename_i hcontra
      exact absurd habort hcontra
  · intro lvl st e rest r1 hnab ih3 ih2 hlvl ev hev l hl
    rw [scanList] at hev
    split at hev
    · exact ih3 hlvl ev hev l hl
    · rcases List.mem_append.mp hev with h | h
      · exact ih3 hlvl ev h l hl
      · exact ih2 hlvl ev h l hl

/-- Level bound for the search walk, as `scan_level_bound`. -/
theorem search_level_bound (o : Opts) (hN : o.recursionLevel ≠ 0)
    (path0 : String) (lvl0 : Nat) (openRes0 : Option (List FsEntry)) (st0 : St) :
    lvl0 ≤ o.recursionLevel →
    ∀ ev ∈ (searchPath o path0 lvl0 openRes0 st0).evs, ∀ l, ev.lvl? = some l →
      l ≤ o.recursionLevel := by
  refine searchPath.induct o
    (fun path lvl openRes st => lvl ≤ o.recursionLevel →
      ∀ ev ∈ (searchPath o path lvl openRes st).evs, ∀ l, ev.lvl? = some l →
        l ≤ o.recursionLevel)
    (fun lvl es st => lvl ≤ o.recursionLevel →
      ∀ ev ∈ (searchList o lvl es st).evs, ∀ l, ev.lvl? = some l →
        l ≤ o.recursionLevel)
    (fun lvl e st => lvl ≤ o.recursionLevel →
      ∀ ev ∈ (searchEntry o lvl e st).evs, ∀ l, ev.lvl? = some l →
        l ≤ o.recursionLevel)
    ?_ ?_ ?_ ?_ ?_ ?_ ?_ path0 lvl0 openRes0 st0
  · intro lvl st name hlvl ev hev l hl
    rw [searchEntry] at hev
    repeat' split at hev
    all_goals simp_all [Ev.lvl?]
  · intro lvl st name isSym stype sizeRes targetRes canonOk openRes p hcond ih
    intro hlvl ev hev l hl
    rw [searchEntry, if_pos hcond] at hev
    rcases List.mem_append.mp hev with h | h
    · split at h
      · have := matchPrintEvs_lvl o lvl name isSym stype sizeRes canonOk openRes ev h l hl
        omega
      · simp at h
    · have hlt : lvl < o.recursionLevel := recurseCond_lt o lvl hN hcond.2.2
      exact ih (by omega) ev h l hl
  · intro lvl st name isSym stype sizeRes targetRes canonOk openRes hcond
    intro hlvl ev hev l hl
    rw [searchEntry, if_neg hcond] at hev
    split at hev
    · have := matchPrintEvs_lvl o lvl name isSym stype sizeRes canonOk openRes ev hev l hl
      omega
    · simp at hev
  · intro path lvl st hlvl ev hev l hl
    rw [searchPath] at hev
    repeat' split at hev
    all_goals simp_all [Ev.lvl?]
  · intro path lvl st es ih hlvl ev hev l hl
    rw [searchPath] at hev
    exact ih hlvl ev hev l hl
  · intro lvl st hlvl ev hev l hl
    rw [searchList] at hev
    simp at hev
  · intro lvl st e rest r1 ih1 ih2 hlvl ev hev l hl
    rw [searchList] at hev
    rcases List.mem_append.mp hev with h | h
    · exact ih1 hlvl ev h l hl
    · exact ih2 hlvl ev h l hl

/-- **C4** — Depth limit.  (1) The display walk, meeting a subdirectory at
level `L`, recurses into it at level `L+1` exactly when recursion is
enabled and (the limit is 0 or `L` is below the limit); otherwise it only
prints the directory's line.  (2) The same holds for the search walk
(which also carries its classify-and-match step).  (3)-(4) Consequently,
with a nonzero depth limit `N`, every per-entry line of a whole display or
search run is printed at a level at most `N`: no entry more than `N`
levels below the root is visited. -/
theorem depth_limit_recursion :
    (∀ (o : Opts) (lvl : Nat) (name : String) (sz : Option Nat) (tr : Option String)
       (c : Bool) (op : Option (List FsEntry)) (st : St),
      (o.showRecursive = true ∧ (o.recursionLevel = 0 ∨ lvl < o.recursionLevel) →
        scanEntry o lvl (.node name false .dir sz tr c op) st =
          { cnt := { Cnt.zero with subdirCnt := 1 }
            st := (scanPath o name (lvl + 1) op st).st
            evs := Ev.dirLine lvl name (if o.showDirSize then calcDirSize op else -1) ::
              (scanPath o name (lvl + 1) op st).evs
            aborted := (scanPath o name (lvl + 1) op st).aborted }) ∧
      (¬(o.showRecursive = true ∧ (o.recursionLevel = 0 ∨ lvl < o.recursionLevel)) →
        scanEntry o lvl (.node name false .dir sz tr c op) st =
          { cnt := { Cnt.zero with subdirCnt := 1 }, st := st
            evs := [Ev.dirLine lvl name (if o.showDirSize then calcDirSize op else -1)]
            aborted := false })) ∧
    (∀ (o : Opts) (lvl : Nat) (name : String) (sz : Option Nat) (tr : Option String)
       (c : Bool) (op : Option (List FsEntry)) (st : St),
      (o.showRecursive = true ∧ (o.recursionLevel = 0 ∨ lvl < o.recursionLevel) →
        searchEntry o lvl (.node name false .dir sz tr c op) st =
          { st := (searchPath o name (lvl + 1) op (searchStep o name false .dir st).1).st
            evs := (if (searchStep o name false .dir st).2 then
                matchPrintEvs o lvl name false .dir sz c op else []) ++
              (searchPath o name (lvl + 1) op (searchStep o name false .dir st).1).evs }) ∧
      (¬(o.showRecursive = true ∧ (o.recursionLevel = 0 ∨ lvl < o.recursionLevel)) →
        searchEntry o lvl (.node name false .dir sz tr c op) st =
          { st := (searchStep o name false .dir st).1
            evs := if (searchStep o name false .dir st).2 then
              matchPrintEvs o lvl name false .dir sz c op else [] })) ∧
    (∀ (o : Opts), o.recursionLevel ≠ 0 →
      ∀ (path : String) (op : Option (List FsEntry)) (st : St),
        ∀ ev ∈ (scanPath o path 0 op st).evs, ∀ l, ev.lvl? = some l →
          l ≤ o.recursionLevel) ∧
    (∀ (o : Opts), o.recursionLevel ≠ 0 →
      ∀ (path : String) (op : Option (List FsEntry)) (st : St),
        ∀ ev ∈ (searchPath o path 0 op st).evs, ∀ l, ev.lvl? = some l →
          l ≤ o.recursionLevel) := by
  refine ⟨fun o lvl name sz tr c op st => ⟨fun h => ?_, fun h => ?_⟩,
    fun o lvl name sz tr c op st => ⟨fun h => ?_, fun h => ?_⟩,
    fun o hN path op st => scan_level_bound o hN path 0 op st (Nat.zero_le _),
    fun o hN path op st => search_level_bound o hN path 0 op st (Nat.zero_le _)⟩
  · have hc : recurseCond o lvl = true := (recurseCond_iff o lvl).mpr h
    simp [scanEntry, hc]
  · have hc : recurseCond o lvl = false :=
      Bool.eq_false_iff.mpr (fun hcc => h ((recurseCond_iff o lvl).mp hcc))
    simp [scanEntry, hc]
  · have hc : recurseCond o lvl = true := (recurseCond_iff o lvl).mpr h
    rw [searchEntry, if_pos ⟨rfl, rfl, hc⟩]
  · have hc : recurseCond o lvl = false :=
      Bool.eq_false_iff.mpr (fun hcc => h ((recurseCond_iff o lvl).mp hcc))
    rw [searchEntry, if_neg (by simp [hc])]

/-- Display options with `--recursive 2` and `--files` for the C4 witness. -/
def oDepth2 : Opts :=
  { showRecursive := true
    showFiles := true
    showSymlinks := false
    showSpecial := false
    showDirSize := false
    showErrors := false
    searchExact := false
    searchNoext := false
    recursionLevel := 2
    searchPattern := "" }

/-- A four-level directory chain: d1 holds d2 holds d3 holds a file. -/
def exDeepDir : List FsEntry :=
  [FsEntry.node "d1" false .dir none none true
    (some [FsEntry.node "d2" false .dir none none true
      (some [FsEntry.node "d3" false .dir none none true
        (some [FsEntry.node "f" false .file (some 1) none true none])])])]

/-- Witness for C4: with `--recursive 2` on the four-level chain the whole
run prints exactly the directory lines at levels 0, 1 and 2 — the file at
depth 3 is never visited even though `--files` is on — and the theorem
applies to the deepest printed line, bounding its level by 2. -/
theorem depth_limit_recursion_witness :
    (scanPath oDepth2 "r" 0 (some exDeepDir) St.init).evs =
      [Ev.dirLine 0 "d1" (-1), Ev.dirLine 1 "d2" (-1), Ev.dirLine 2 "d3" (-1)] ∧
    oDepth2.recursionLevel ≠ 0 ∧
    Ev.dirLine 2 "d3" (-1) ∈ (scanPath oDepth2 "r" 0 (some exDeepDir) St.init).evs ∧
    (Ev.dirLine 2 "d3" (-1)).lvl? = some 2 ∧
    2 ≤ oDepth2.recursionLevel :=
  ⟨by decide, by decide, by decide, by decide,
    depth_limit_recursion.2.2.1 oDepth2 (by decide) "r" (some exDeepDir) St.init
      (Ev.dirLine 2 "d3" (-1)) (by decide) 2 (by decide)⟩

/-!  ## Claim C7: directory-open failure policy  -/

/-- Counterexample for C7's last clause ("errors are reported only when
error-visibility is on"): a root-level open failure in the display walk is
reported even with `-e` off — `scan_path` prints a plain "Error iterating
over ..." diagnostic on standard output in that case. -/
theorem root_open_error_reported_cex :
    oDepth2.showErrors = false ∧
    (scanPath oDepth2 "r" 0 none St.init).evs = [Ev.outLine "r"] :=
  ⟨by decide, by decide⟩

/-- **C7 (amended)** — Directory-open failure policy.  (1) A root-level
open failure in the display walk clears the summary flag, changes nothing
else, does not abort, and is *always* reported — through the error channel
when error-visibility is on, else as a plain diagnostic.  (2) At a deeper
level only that subtree is abandoned: state unchanged, no abort, and a
report only when error-visibility is on.  (3) A subdirectory whose open
fails costs its parent's loop exactly the directory line (plus the child's
error report when `-e` is on and recursion descends): the loop continues
over the remaining siblings, whose results are untouched.  (4) After a
root-level open failure neither driver prints any end-of-run summary
block.  (5)-(6) In the search walk a root failure clears the summary flag
and a failure at any level is reported only when error-visibility is on. -/
theorem dir_open_failure_policy :
    (∀ (o : Opts) (path : String) (st : St),
      scanPath o path 0 none st =
        { st := { st with printSummary := false }
          evs := if o.showErrors then [Ev.errLine path] else [Ev.outLine path]
          aborted := false }) ∧
    (∀ (o : Opts) (path : String) (lvl : Nat) (st : St), lvl ≠ 0 →
      scanPath o path lvl none st =
        { st := st
          evs := if o.showErrors then [Ev.errLine path] else []
          aborted := false }) ∧
    (∀ (o : Opts) (lvl : Nat) (name : String) (sz : Option Nat) (tr : Option String)
       (c : Bool) (rest : List FsEntry) (st : St),
      scanList o lvl (.node name false .dir sz tr c none :: rest) st =
        { cnt := ({ Cnt.zero with subdirCnt := 1 }).add (scanList o lvl rest st).cnt
          st := (scanList o lvl rest st).st
          evs := (Ev.dirLine lvl name (-1) ::
              (if recurseCond o lvl = true then
                (if o.showErrors then [Ev.errLine name] else []) else [])) ++
            (scanList o lvl rest st).evs
          aborted := (scanList o lvl rest st).aborted }) ∧
    (∀ (o : Opts) (path : String) (st : St),
      (∀ ev ∈ (scanPathInit o path none st).evs, ev.isSummary = false) ∧
      (∀ ev ∈ (searchPathInit o path none st).evs, ev.isSummary = false)) ∧
    (∀ (o : Opts) (path : String) (st : St),
      searchPath o path 0 none st =
        { st := { st with printSummary := false }
          evs := if o.showErrors then [Ev.errLine path] else [] }) ∧
    (∀ (o : Opts) (path : String) (lvl : Nat) (st : St), lvl ≠ 0 →
      searchPath o path lvl none st =
        { st := st, evs := if o.showErrors then [Ev.errLine path] else [] }) := by
  refine ⟨fun o path st => by simp [scanPath],
    fun o path lvl st hl => by simp [scanPath, hl],
    fun o lvl name sz tr c rest st => ?_,
    fun o path st => ⟨fun ev hev => ?_, fun ev hev => ?_⟩,
    fun o path st => by simp [searchPath],
    fun o path lvl st hl => by simp [searchPath, hl]⟩
  · by_cases hrc : recurseCond o lvl = true <;>
      simp [scanList, scanEntry, scanPath, hrc, calcDirSize]
  · by_cases he : o.showErrors = true <;>
      simp [scanPathInit, scanPath, he] at hev <;>
      subst hev <;> simp [Ev.isSummary]
  · by_cases he : o.showErrors = true
    · simp [searchPathInit, searchPath, he] at hev
      subst hev
      simp [Ev.isSummary]
    · simp [searchPathInit, searchPath, he] at hev

/-- Witness for C7 (amended): a deeper-level open failure with `-e` off —
concretely at level 1 — leaves the state untouched, reports nothing and
does not abort. -/
theorem dir_open_failure_policy_witness :
    (1 : Nat) ≠ 0 ∧
    scanPath oDepth2 "sub" 1 none St.init =
      { st := St.init, evs := [], aborted := false } := by
  refine ⟨by decide, ?_⟩
  have h := dir_open_failure_policy.2.1 oDepth2 "sub" 1 St.init (by decide)
  simpa using h

/-!  ## Claim C3: cycle safety and termination  -/

/-- Adding counters does not consume fuel or change the running/exited
status of a walker result. -/
theorem withCnt_isSome (c : Cnt) (r : Option (Except Int Cnt)) :
    (withCnt c r).isSome = r.isSome := by
  match r with
  | none => rfl
  | some (.error code) => rfl
  | some (.ok d) => rfl

/-- The size-calculator loop completes whenever the recursive call
completes on every entry it descends into (successfully statted non-symlink
directories). -/
theorem calcGLoop_isSome (rec : Nat → Option Int) (es : List GEntry)
    (h : ∀ e ∈ es, e.statOk = true → e.stype = .dir → e.isSym = false →
      (rec e.target).isSome) :
    (calcGLoop rec es).isSome := by
  induction es with
  | nil => simp [calcGLoop]
  | cons e rest ih =>
    have hrest := ih (fun x hx => h x (List.mem_cons_of_mem _ hx))
    rw [calcGLoop]
    split
    · exact hrest
    · split
      · simpa using hrest
      · split
        · rename_i hnstat hnfile hdir
          have hst : e.statOk = true := by simpa using hnstat
          have hrec := h e (List.mem_cons_self e rest) hst hdir.1 hdir.2
          match hr : rec e.target with
          | none => rw [hr] at hrec; simp at hrec
          | some c => simpa using hrest
        · exact hrest

/-- The size calculator completes on every node whose rank is below the
fuel budget, for any filesystem graph whose plain directory hierarchy is
ranked — symlink entries, including symlinks to their own directory or an
ancestor, are never descended into and need no rank. -/
theorem calcG_isSome (fs : GFs) (rank : Nat → Nat) (hr : DirRanked fs rank) :
    ∀ (fuel n : Nat), rank n < fuel → (calcG fs fuel n).isSome := by
  intro fuel
  induction fuel with
  | zero =>
    intro n h
    omega
  | succ f ih =>
    intro n h
    rw [calcG]
    match hfs : fs n with
    | none => simp
    | some es =>
      apply calcGLoop_isSome
      intro e he hst hdir hsym
      apply ih
      have := hr n es e hfs he hst hdir hsym
      omega

/-- The display-walk loop completes whenever the recursive call completes
on every entry it can descend into. -/
theorem scanGLoop_isSome (o : Opts) (lvl : Nat)
    (rec : Nat → Option (Except Int Cnt)) (es : List GEntry)
    (h : ∀ e ∈ es, e.statOk = true → e.stype = .dir → e.isSym = false →
      (rec e.target).isSome) :
    (scanGLoop o lvl rec es).isSome := by
  induction es with
  | nil => simp [scanGLoop]
  | cons e rest ih =>
    have hrest := ih (fun x hx => h x (List.mem_cons_of_mem _ hx))
    rw [scanGLoop]
    split
    · exact hrest
    · split
      · rw [withCnt_isSome]; exact hrest
      · split
        · rw [withCnt_isSome]; exact hrest
        · split
          · rw [withCnt_isSome]; exact hrest
          · split
            · rename_i hnstat hnsym hnfile hnspec hdir
              split
              · have hst : e.statOk = true := by simpa using hnstat
                have hsym : e.isSym = false := by simpa using hnsym
                have hrec := h e (List.mem_cons_self e rest) hst hdir hsym
                match hr : rec e.target with
                | none => rw [hr] at hrec; simp at hrec
                | some (.error code) => simp
                | some (.ok d) => rw [withCnt_isSome]; exact hrest
              · rw [withCnt_isSome]; exact hrest
            · simp

/-- The display walk completes (returns, or exits through its fail-fast
path) on every node whose rank is below the fuel budget. -/
theorem scanG_isSome (fs : GFs) (o : Opts) (rank : Nat → Nat)
    (hr : DirRanked fs rank) :
    ∀ (fuel lvl n : Nat), rank n < fuel → (scanG fs o fuel lvl n).isSome := by
  intro fuel
  induction fuel with
  | zero =>
    intro lvl n h
    omega
  | succ f ih =>
    intro lvl n h
    rw [scanG]
    match hfs : fs n with
    | none => simp
    | some es =>
      apply scanGLoop_isSome
      intro e he hst hdir hsym
      apply ih
      have := hr n es e hfs he hst hdir hsym
      omega

/-- **C3** — Symlink cycle safety / termination: over any filesystem graph
whose plain (non-symlink) directory hierarchy admits a rank function —
which every real directory tree does, while symlink entries remain
completely unconstrained and may point at their own directory or any
ancestor — both the size calculator and the display walk finish within a
fuel budget exceeding the root's rank.  Neither ever recurses through a
symlink entry, so a symlink cycle cannot cause unbounded recursion. -/
theorem walker_and_size_calc_terminate :
    ∀ (fs : GFs) (rank : Nat → Nat), DirRanked fs rank →
      ∀ (o : Opts) (fuel lvl n : Nat), rank n < fuel →
        (calcG fs fuel n).isSome ∧ (scanG fs o fuel lvl n).isSome :=
  fun fs rank hr o fuel lvl n h =>
    ⟨calcG_isSome fs rank hr fuel n h, scanG_isSome fs o rank hr fuel lvl n h⟩

/-- A filesystem graph with a directory cycle through a symlink: node 0's
listing holds a 5-byte file and a symlink entry whose followed status is
`directory` and whose target is node 0 itself. -/
def cyclicFs : GFs := fun n =>
  if n = 0 then
    some [GEntry.mk true false .file (some 5) 7,
          GEntry.mk true true .dir none 0]
  else none

/-- Witness for C3: the self-referential symlink graph satisfies the rank
hypothesis with the constant rank 0 (it has no non-symlink subdirectory
entries), and with fuel 1 both traversals complete on node 0 — the size
calculator even returns the 5-byte total. -/
theorem walker_and_size_calc_terminate_witness :
    DirRanked cyclicFs (fun _ => 0) ∧
    ((calcG cyclicFs 1 0).isSome ∧ (scanG cyclicFs oScanAll 1 0 0).isSome) ∧
    calcG cyclicFs 1 0 = some 5 := by
  have hr : DirRanked cyclicFs (fun _ => 0) := by
    intro n es e hfs he hst hdir hsym
    by_cases hn : n = 0
    · subst hn
      simp [cyclicFs] at hfs
      subst hfs
      simp at he
      rcases he with he | he
      · rw [he] at hdir
        simp at hdir
      · rw [he] at hsym
        simp at hsym
    · rw [cyclicFs] at hfs
      rw [if_neg hn] at hfs
      cases hfs
  exact ⟨hr,
    walker_and_size_calc_terminate cyclicFs (fun _ => 0) hr oScanAll 1 0 0
      (by decide),
    by decide⟩
